import Mathlib

/-!
Verification development for the `linprog` vertex-enumeration LP solver.

The Python source is shallowly embedded over exact rationals (`ℚ` stands for
the float values the code manipulates; all comparisons and the `1e-8`
tolerance are taken exactly).  `Except String` models Python exceptions, with
the error string naming the exception class raised.
-/

namespace LinProg

set_option maxRecDepth 100000

attribute [local semireducible] Rat.add Rat.mul Rat.sub Rat.inv

/-- The absolute feasibility tolerance `1e-8` used by `SimplexSolver._calculate_intersection`. -/
def tol : ℚ := 1 / 100000000

/-- Rounding of a rational to the nearest integer, ties to even:
the rounding mode of `np.round`. -/
def roundHalfEven (q : ℚ) : ℤ :=
  let f := ⌊q⌋
  let r := q - (f : ℚ)
  if r < 1/2 then f
  else if 1/2 < r then f + 1
  else if f % 2 = 0 then f else f + 1

/-- Embeds `np.round(x, 8)`: round to 8 decimal digits, ties to even. -/
def round8 (q : ℚ) : ℚ := (roundHalfEven (q * 100000000) : ℚ) / 100000000

/-- Coordinatewise `np.round(point, 8)`, producing the dictionary key
`tuple(np.round(point, 8))` of the vertex dictionary. -/
def roundPt (pt : List ℚ) : List ℚ := pt.map round8

/-- Embeds `np.dot` of a constraint row with a point. -/
def dotQ (a x : List ℚ) : ℚ := (List.zipWith (fun u v => u * v) a x).sum

/-- the Python `zip` builtin over three lists: truncates to the shortest. -/
def zip3 {α β γ : Type} (a : List α) (b : List β) (c : List γ) : List (α × β × γ) :=
  List.zipWith (fun x p => (x, p)) a (List.zip b c)

/-- Column-deleted minor rows used by the Laplace expansion. -/
def minorCols (rows : List (List ℚ)) (j : Nat) : List (List ℚ) :=
  rows.map (fun r => r.eraseIdx j)

/-- Determinant by Laplace expansion along the first row, with a structural
fuel argument (the fuel is always the number of rows, so the value is the
exact determinant of a square matrix). -/
def detAux : Nat → List (List ℚ) → ℚ
  | _, [] => 1
  | 0, _ :: _ => 0
  | n + 1, r :: rs =>
    (List.range r.length).foldl
      (fun acc j =>
        acc + (if j % 2 = 0 then (1 : ℚ) else -1) * r.getD j 0 * detAux n (minorCols rs j)) 0

/-- Determinant of a (square, list-of-rows) rational matrix. -/
def detQ (rows : List (List ℚ)) : ℚ := detAux rows.length rows

/-- One column of the matrix replaced by the right-hand side, for the Cramer rule. -/
def replaceColumn (A : List (List ℚ)) (b : List ℚ) (j : Nat) : List (List ℚ) :=
  List.zipWith (fun row bv => row.set j bv) A b

/-- Model of the `matrix_rank` guard plus `np.linalg.solve` on the square
subsystem chosen by a combination: a square matrix has `rank < n` exactly when
its determinant vanishes (then the code `continue`s, and `np.linalg.solve`
would raise `LinAlgError`, also skipped); otherwise `np.linalg.solve` returns
the unique solution, which the Cramer rule computes exactly. -/
def linSolve (A : List (List ℚ)) (b : List ℚ) : Option (List ℚ) :=
  let d := detQ A
  if d = 0 then none
  else some ((List.range A.length).map (fun j => detQ (replaceColumn A b j) / d))

/-- Embeds `itertools.combinations` of a list, size `k`, in the lexicographic order of the library. -/
def combosK : Nat → List Nat → List (List Nat)
  | 0, _ => [[]]
  | _ + 1, [] => []
  | k + 1, x :: xs => (combosK k xs).map (fun t => x :: t) ++ combosK (k + 1) xs

/-- The validated problem data held by `LinearProgrammingConfig` (the
keyword knobs of the constructor are stored verbatim; `var_bounds` entries are
`none` for Python `None`, i.e. an unbounded variable). -/
structure LinearProgrammingConfig where
  method : String
  objective_type : String
  c : List ℚ
  A : List (List ℚ)
  b : List ℚ
  constraint_signs : List String
  var_bounds : List (Option String)
  problem_form : String
  print_solution : Bool
  print_plot : Bool
  print_tables : Bool
  print_path : Bool
  print_plot_path : Bool
  verbose : Bool

/-- Embeds `LinearProgrammingConfig.__init__`: stores the fields, defaults a falsy
`var_bounds` to `[None] * len(c)`, disables plotting beyond 2 variables, and
collects the `logger.warning` messages it emits (warnings never abort). -/
def mkLinearProgrammingConfig (method objective_type : String) (c : List ℚ)
    (A : List (List ℚ)) (b : List ℚ) (constraint_signs : List String)
    (var_bounds : Option (List (Option String))) (problem_form : String)
    (print_solution print_plot print_tables print_path print_plot_path verbose : Bool) :
    LinearProgrammingConfig × List String :=
  let w1 : List String :=
    if method ∈ ["geometric", "simplex", "bland", "two_phase"] then [] else ["Invalid method"]
  let w2 : List String :=
    if objective_type ∈ ["min", "max"] then [] else ["Invalid objective type"]
  let w3 : List String :=
    if problem_form ∈ ["general", "standard", "canonical"] then [] else ["Invalid problem form"]
  let vb : List (Option String) :=
    match var_bounds with
    | none => List.replicate c.length none
    | some l => if l = [] then List.replicate c.length none else l
  let plotOff := print_plot ∧ 2 < c.length
  let w4 : List String := if plotOff then ["Plotting is only supported for 2D problems"] else []
  let pp := if plotOff then false else print_plot
  let plotPathOff := print_plot_path ∧ 2 < c.length
  let w5 : List String :=
    if plotPathOff then ["Plotting path is only supported for 2D problems"] else []
  let ppp := if plotPathOff then false else print_plot_path
  ({ method := method, objective_type := objective_type, c := c, A := A, b := b
     constraint_signs := constraint_signs, var_bounds := vb, problem_form := problem_form
     print_solution := print_solution, print_plot := pp, print_tables := print_tables
     print_path := print_path, print_plot_path := ppp, verbose := verbose },
   w1 ++ w2 ++ w3 ++ w4 ++ w5)

/-- Embeds `SimplexProblemConfig`: the base configuration plus the presentation
`option` (`"coordinates"` or `"objective"`). -/
structure SimplexProblemConfig extends LinearProgrammingConfig where
  option : String

/-- Embeds `SimplexProblemConfig.__init__` delegates to the base constructor and
records `option`. -/
def mkSimplexProblemConfig (method objective_type : String) (c : List ℚ)
    (A : List (List ℚ)) (b : List ℚ) (constraint_signs : List String)
    (var_bounds : Option (List (Option String))) (problem_form : String)
    (print_solution print_plot print_tables print_path print_plot_path verbose : Bool)
    (option : String) : SimplexProblemConfig × List String :=
  let base := mkLinearProgrammingConfig method objective_type c A b constraint_signs
    var_bounds problem_form print_solution print_plot print_tables print_path
    print_plot_path verbose
  ({ toLinearProgrammingConfig := base.1, option := option }, base.2)

/-- Embeds `A.shape[1]` of the (rectangular) constraint matrix: the number of
variables used by `_calculate_intersection`. -/
def numVarsOf (cfg : SimplexProblemConfig) : Nat := (cfg.A.headD []).length

/-- Embeds `self.config.var_bounds or [">="] * num_vars`: an empty (falsy) bounds
list is replaced by all-`">="` defaults inside the enumerator. -/
def effBounds (cfg : SimplexProblemConfig) : List (Option String) :=
  if cfg.var_bounds.isEmpty then List.replicate (numVarsOf cfg) (some ">=") else cfg.var_bounds

/-- The synthetic bound row `e_i` of length `numVars`. -/
def eRow (numVars i : Nat) : List ℚ := (List.replicate numVars (0 : ℚ)).set i 1

/-- The augmentation loop: for each variable whose bound tag is `">="`,
`np.vstack` the row `e_i` onto `A` and append `0.0` to `b`. -/
def augmentLoop (A : List (List ℚ)) (b : List ℚ) (numVars : Nat)
    (vb : List (Option String)) : List (List ℚ) × List ℚ :=
  vb.enum.foldl
    (fun acc p =>
      if p.2 = some ">=" then (acc.1 ++ [eRow numVars p.1], acc.2 ++ [0]) else acc)
    (A, b)

/-- The augmented working system `(A, b)` after bound rows are appended. -/
def augSystem (cfg : SimplexProblemConfig) : List (List ℚ) × List ℚ :=
  augmentLoop cfg.A cfg.b (numVarsOf cfg) (effBounds cfg)

/-- One clause of the feasibility check: `True` exactly when the corresponding `if` of that row
branch in the source would set `feasible = False` for this candidate. -/
def rowInfeasible (a : List ℚ) (bv : ℚ) (sign : String) (pt : List ℚ) : Bool :=
  (sign == "<=" && decide (bv + tol < dotQ a pt)) ||
  (sign == ">=" && decide (dotQ a pt < bv - tol)) ||
  (sign == "=" && decide (tol < |dotQ a pt - bv|))

/-- The whole feasibility check: `zip(A, b, constraint_signs + [">="]*num_vars)`
(truncating like Python `zip`), candidate kept when no row rejects it. -/
def feasibleAll (Aaug : List (List ℚ)) (Baug : List ℚ) (signs : List String)
    (numVars : Nat) (pt : List ℚ) : Bool :=
  (zip3 Aaug Baug (signs ++ List.replicate numVars ">=")).all
    (fun t => !(rowInfeasible t.1 t.2.1 t.2.2 pt))

/-- The `(row-tuple)` list the feasibility loop iterates over. -/
def augmentedChecks (cfg : SimplexProblemConfig) : List (List ℚ × ℚ × String) :=
  zip3 (augSystem cfg).1 (augSystem cfg).2
    (cfg.constraint_signs ++ List.replicate (numVarsOf cfg) ">=")

/-- Insert a key into the ordered key list of the vertex dictionary: Python
dict insertion is a no-op on an existing key and appends a fresh one. -/
def insertNew {α : Type} [DecidableEq α] (acc : List α) (x : α) : List α :=
  if x ∈ acc then acc else acc ++ [x]

/-- The enumeration loop of `_calculate_intersection`: every combination of
`num_vars` augmented rows, solve the square subsystem, keep feasible points,
dedup by the 8-decimal rounded tuple in first-seen order. -/
def collectVertices (Aaug : List (List ℚ)) (Baug : List ℚ) (signs : List String)
    (numVars : Nat) : List (List ℚ) :=
  (combosK numVars (List.range Aaug.length)).foldl
    (fun acc combo =>
      match linSolve (combo.map (fun i => Aaug.getD i [])) (combo.map (fun i => Baug.getD i 0)) with
      | none => acc
      | some pt =>
        if feasibleAll Aaug Baug signs numVars pt then insertNew acc (roundPt pt) else acc)
    []

/-- The deduplicated, first-seen-ordered rounded vertex keys of a problem. -/
def vertexKeys (cfg : SimplexProblemConfig) : List (List ℚ) :=
  collectVertices (augSystem cfg).1 (augSystem cfg).2 cfg.constraint_signs (numVarsOf cfg)

/-- Embeds `string.ascii_uppercase` as a list of one-letter names. -/
def asciiUpper : List String :=
  ["A", "B", "C", "D", "E", "F", "G", "H", "I", "J", "K", "L", "M",
   "N", "O", "P", "Q", "R", "S", "T", "U", "V", "W", "X", "Y", "Z"]

/-- Embeds `ascii_uppercase[idx] if any(pt) else "O"`: the conditional indexes the
alphabet only when the point has a nonzero coordinate, and raises
`IndexError` past `"Z"`. -/
def nameOf (idx : Nat) (pt : List ℚ) : Except String String :=
  if pt.any (fun x => decide (x ≠ 0)) then
    match asciiUpper.get? idx with
    | some s => Except.ok s
    | none => Except.error "IndexError"
  else Except.ok "O"

/-- The naming loop over the discovered vertices, from a starting index. -/
def nameVerticesAux : Nat → List (List ℚ) → Except String (List String)
  | _, [] => Except.ok []
  | idx, p :: ps =>
    match nameOf idx p with
    | Except.error e => Except.error e
    | Except.ok s =>
      match nameVerticesAux (idx + 1) ps with
      | Except.error e => Except.error e
      | Except.ok r => Except.ok (s :: r)

/-- Display names for the vertex list, in discovery order. -/
def nameVertices (pts : List (List ℚ)) : Except String (List String) :=
  nameVerticesAux 0 pts

/-- Embeds `SimplexSolver._calculate_intersection`: returns
`(coordinates_names, coordinates_values)` or propagates the naming
`IndexError`. -/
def calculate_intersection (cfg : SimplexProblemConfig) :
    Except String (List String × List (List ℚ)) :=
  match nameVertices (vertexKeys cfg) with
  | Except.error e => Except.error e
  | Except.ok ns => Except.ok (ns, vertexKeys cfg)

/-- The objective handed to `SimplexProblemRepresentation`: either the
coefficient list `c` or an arbitrary callable evaluated at a point. -/
inductive ObjectiveFunction where
  | coeffs : List ℚ → ObjectiveFunction
  | callableF : (List ℚ → ℚ) → ObjectiveFunction

/-- Embeds `SimplexProblemRepresentation`: the enumerated vertices plus the
objective, with `objective_type` lower-cased at construction. -/
structure SimplexProblemRepresentation where
  option : String
  coordinates_names : List String
  coordinates_values : List (List ℚ)
  objective_function : ObjectiveFunction
  objective_type : String

/-- Embeds `SimplexProblemRepresentation.__init__`. -/
def mkSimplexProblemRepresentation (option : String) (coordinates_names : List String)
    (coordinates_values : List (List ℚ)) (objective_function : ObjectiveFunction)
    (objective_type : String) : SimplexProblemRepresentation :=
  { option := option, coordinates_names := coordinates_names
    coordinates_values := coordinates_values, objective_function := objective_function
    objective_type := objective_type.toLower }

/-- The `z` value at every vertex: dot product for a coefficient list, direct
invocation for a callable objective. -/
def zValues (rep : SimplexProblemRepresentation) : List ℚ :=
  match rep.objective_function with
  | ObjectiveFunction.callableF f => rep.coordinates_values.map f
  | ObjectiveFunction.coeffs c => rep.coordinates_values.map (fun x => dotQ c x)

/-- Embeds `max(z_vals)` (`0` only on the empty list reached by no caller). -/
def maxQ : List ℚ → ℚ
  | [] => 0
  | [x] => x
  | x :: y :: ys => max x (maxQ (y :: ys))

/-- Embeds `min(z_vals)`. -/
def minQ : List ℚ → ℚ
  | [] => 0
  | [x] => x
  | x :: y :: ys => min x (minQ (y :: ys))

/-- Embeds `np.argmax`: the index of the first occurrence of the maximum. -/
def argmaxIdx : List ℚ → Nat
  | [] => 0
  | [_] => 0
  | x :: y :: ys => if maxQ (y :: ys) ≤ x then 0 else argmaxIdx (y :: ys) + 1

/-- Embeds `np.argmin`: the index of the first occurrence of the minimum. -/
def argminIdx : List ℚ → Nat
  | [] => 0
  | [_] => 0
  | x :: y :: ys => if x ≤ minQ (y :: ys) then 0 else argminIdx (y :: ys) + 1

/-- Embeds `SimplexProblemRepresentation.coordinate_method`, up to the selected
solution `(best_name, best_coords, best_z)` that the printed report renders:
rejects a non-`"coordinates"` option (`ValueError`), raises `IndexError` on an
empty vertex list (`self.coordinates_values[0]`), then selects by
`np.argmax` / `np.argmin` of the `z` values. -/
def coordinate_method (rep : SimplexProblemRepresentation) :
    Except String (String × List ℚ × ℚ) :=
  if rep.option ≠ "coordinates" then Except.error "ValueError"
  else if rep.coordinates_values.isEmpty then Except.error "IndexError"
  else
    let zs := zValues rep
    let bi := if rep.objective_type = "max" then argmaxIdx zs else argminIdx zs
    match rep.coordinates_names.get? bi, rep.coordinates_values.get? bi, zs.get? bi with
    | some nm, some cv, some z => Except.ok (nm, cv, z)
    | _, _, _ => Except.error "IndexError"

/-- Embeds `best_z` of `objective_method`: `max(z_vals)` for `"max"`, otherwise
`min(z_vals)`. -/
def bestZ (rep : SimplexProblemRepresentation) : ℚ :=
  if rep.objective_type = "max" then maxQ (zValues rep) else minQ (zValues rep)

/-- Embeds `SimplexProblemRepresentation.objective_method`: rejects a
non-`"objective"` option (`ValueError`); `np.argmax`/`np.argmin` on an empty
`z_vals` raises `ValueError`; indexing names/coords can raise `IndexError`;
`best_z - step` with `step = None` raises `TypeError`; finally the sweep
triple `(z_a, z_b, z_c)` is returned only when `print_result` is false (the
printing path falls through and returns `None`). -/
def objective_method (rep : SimplexProblemRepresentation) (step : Option ℚ)
    (print_result : Bool) : Except String (Option (ℚ × ℚ × ℚ)) :=
  if rep.option ≠ "objective" then Except.error "ValueError"
  else
    let zs := zValues rep
    if zs.isEmpty then Except.error "ValueError"
    else
      let bi := if rep.objective_type = "max" then argmaxIdx zs else argminIdx zs
      let bz := bestZ rep
      match rep.coordinates_names.get? bi, rep.coordinates_values.get? bi with
      | some _, some _ =>
        match step with
        | none => Except.error "TypeError"
        | some s => if print_result then Except.ok none else Except.ok (some (bz - s, bz, bz + s))
      | _, _ => Except.error "IndexError"

/-- Embeds `SimplexSolver`: the configuration plus the objective-line step. -/
structure SimplexSolver where
  config : SimplexProblemConfig
  step : Option ℚ

/-- Embeds `SimplexSolver.__init__`: the `step` parameter defaults to `None`, and a
non-`None` step is discarded (with a warning) unless `option` is
`"objective"`. -/
def mkSimplexSolver (config : SimplexProblemConfig) (step : Option ℚ) : SimplexSolver :=
  { config := config
    step := if config.option ∉ ["objective"] ∧ step ≠ none then none else step }

/-- Embeds `SimplexSolver._plot_domain` as the core sees it: disabled plotting
returns immediately; with plotting on, a 2-variable problem in `"objective"`
mode evaluates `objective_method(step, print_result=False)` for the objective
lines (the graphics themselves are an external collaborator). -/
def plot_domain (s : SimplexSolver) (rep : SimplexProblemRepresentation) :
    Except String Unit :=
  if s.config.print_plot = false then Except.ok ()
  else if s.config.c.length = 2 ∧ s.config.option = "objective" then
    match objective_method rep s.step false with
    | Except.error e => Except.error e
    | Except.ok _ => Except.ok ()
  else Except.ok ()

/-- Embeds `SimplexSolver.solve`: enumerate vertices, build the representation, run
the plotting collaborator, then dispatch on `option`. -/
def solve (s : SimplexSolver) : Except String (Option (String × List ℚ × ℚ)) :=
  match calculate_intersection s.config with
  | Except.error e => Except.error e
  | Except.ok (ns, vs) =>
    let rep := mkSimplexProblemRepresentation s.config.option ns vs
      (ObjectiveFunction.coeffs s.config.c) s.config.objective_type
    match plot_domain s rep with
    | Except.error e => Except.error e
    | Except.ok _ =>
      if s.config.option = "objective" then
        match objective_method rep s.step true with
        | Except.error e => Except.error e
        | Except.ok _ => Except.ok none
      else if s.config.option = "coordinates" then
        match coordinate_method rep with
        | Except.error e => Except.error e
        | Except.ok r => Except.ok (some r)
      else Except.ok none

/-- Decimal digits of a rational in `[0, 1)`, with fuel; every value a Python
float can hold has a finite decimal expansion, so the fuel is never exhausted
on inputs the source can see. -/
def fracDigits : Nat → ℚ → String
  | 0, _ => ""
  | fuel + 1, q =>
    if q = 0 then ""
    else
      let d := ⌊q * 10⌋
      toString d ++ fracDigits fuel (q * 10 - (d : ℚ))

/-- Embeds `str(x)` for a positive non-integral number: integer part, a point, then
the decimal digits. -/
def decimalString (q : ℚ) : String :=
  toString ⌊q⌋ ++ "." ++ fracDigits 40 (q - (⌊q⌋ : ℚ))

/-- Embeds `LinearProgrammingConfig._format_term_for_expression`: magnitude-1
coefficients omit the numeral, whole magnitudes print without a decimal
point, the first written term carries a bare `-` only when negative, and
later terms are joined by a padded sign. -/
def format_term_for_expression (coef : ℚ) (var_name : String) (is_first_term : Bool) :
    String :=
  let abs_coef := |coef|
  let coefStrPart :=
    if abs_coef = 1 then ""
    else if abs_coef.den = 1 then toString abs_coef.num
    else decimalString abs_coef
  let termCore := coefStrPart ++ var_name
  let signStr :=
    if is_first_term then (if coef < 0 then "-" else "")
    else (if coef < 0 then " - " else " + ")
  signStr ++ termCore

/-- The term-building loop shared by the objective and each constraint row in
`summary`: zero coefficients are skipped (`continue`), the first *written*
term is flagged, and variable `j` renders as `x_{j+1}`. -/
def exprTerms : List ℚ → Nat → Bool → List String
  | [], _, _ => []
  | coef :: rest, j, first =>
    if coef = 0 then exprTerms rest (j + 1) first
    else
      format_term_for_expression coef ("x_\x7b" ++ toString (j + 1) ++ "\x7d") first ::
        exprTerms rest (j + 1) false

/-- The objective expression of `summary`: the literal `"0"` for an empty or
all-zero coefficient list, otherwise the joined nonzero terms. -/
def objectiveString (c : List ℚ) : String :=
  if c = [] ∨ c.all (fun v => decide (v = 0)) then "0"
  else
    let parts := exprTerms c 0 true
    if parts = [] then "0" else String.join parts

/-- Relation symbol rendering of `summary` (unknown signs pass through). -/
def texSign (s : String) : String :=
  if s = "<=" then "\\leq" else if s = ">=" then "\\geq" else if s = "=" then "=" else s

/-- Embeds `str(x)` of a right-hand-side value. -/
def renderQ (q : ℚ) : String :=
  if q.den = 1 then toString q.num
  else if q < 0 then "-" ++ decimalString (-q)
  else decimalString q

/-- The left-hand side of one constraint row in `summary`. -/
def constraintLhs (a_row : List ℚ) : String :=
  if (a_row.all (fun v => decide (v = 0)) ∧ a_row ≠ []) ∨ a_row = [] then "0"
  else String.join (exprTerms a_row 0 true)

/-- The constraint lines of `summary`: one line per element of
`zip(A, b, constraint_signs)` (Python `zip` silently truncates to the
shortest input). -/
def constraintLines (A : List (List ℚ)) (b : List ℚ) (signs : List String) :
    List String :=
  (zip3 A b signs).enum.map
    (fun p =>
      let pre := if p.1 = 0 then "\\text\x7bsubject to\x7d \\quad & " else "& "
      pre ++ constraintLhs p.2.1 ++ " " ++ texSign p.2.2.2 ++ " " ++ renderQ p.2.2.1)

/-- The solved candidate points, one per combination whose square subsystem
is nonsingular, in combination order (before the feasibility filter). -/
def solvedPoints (Aaug : List (List ℚ)) (Baug : List ℚ) (numVars : Nat) :
    List (List ℚ) :=
  (combosK numVars (List.range Aaug.length)).filterMap
    (fun combo =>
      linSolve (combo.map (fun i => Aaug.getD i [])) (combo.map (fun i => Baug.getD i 0)))

/-- The rounded feasible candidate stream, in combination order, duplicates
included. -/
def candidatePoints (Aaug : List (List ℚ)) (Baug : List ℚ) (signs : List String)
    (numVars : Nat) : List (List ℚ) :=
  ((solvedPoints Aaug Baug numVars).filter
    (fun pt => feasibleAll Aaug Baug signs numVars pt)).map roundPt

/-- Keep the first occurrence of every element, in first-seen order (the
order-preserving deduplication of the keys of a Python dict). -/
def firstDedup {α : Type} [DecidableEq α] : List α → List α
  | [] => []
  | a :: l => a :: firstDedup (l.filter (fun x => decide (x ≠ a)))
termination_by l => l.length
decreasing_by
  simp only [List.length_cons]
  exact Nat.lt_succ_of_le (List.length_filter_le _ _)

/-- Modelled from the spec: the naming rule of the claim, under which the
all-zero point is `O` and the k-th *non-zero* vertex discovered gets the k-th
letter of the alphabet. -/
def specNaming : List (List ℚ) → Nat → List String
  | [], _ => []
  | p :: ps, k =>
    if p.any (fun x => decide (x ≠ 0)) then asciiUpper.getD k "" :: specNaming ps (k + 1)
    else "O" :: specNaming ps k

/-- Concrete problem for C1: one variable, the row `x = 7.5e-9` and the row
`1e10 * x <= 75`; the solved candidate `7.5e-9` is feasible within `1e-8`,
but its 8-decimal rounding `1e-8` violates the second row by `25`. -/
def cfgC1 : SimplexProblemConfig :=
  (mkSimplexProblemConfig "simplex" "max" [1] [[1], [10000000000]] [3 / 400000000, 75]
    ["=", "<="] (some [none]) "general" true false false false false false "coordinates").1

/-- Concrete problem for C2: the infeasible system of the spec
`x_1 >= 5`, `x_1 <= 2`, `x_2 >= 0`. -/
def cfgC2 : SimplexProblemConfig :=
  (mkSimplexProblemConfig "simplex" "max" [3, 5] [[1, 0], [1, 0]] [5, 2]
    [">=", "<="] (some [none, some ">="]) "general" true false false false false false
    "coordinates").1

/-- Concrete problem for C3: the first combination intersects at the origin, so
`O` is discovered first and the next vertex `(1,1)` is the first non-zero
one. -/
def cfgC3 : SimplexProblemConfig :=
  (mkSimplexProblemConfig "simplex" "max" [1, 1] [[1, -1], [1, 1], [1, 0]] [0, 0, 1]
    ["=", ">=", "<="] (some [none, none]) "general" true false false false false false
    "coordinates").1

/-- Concrete problem for C8: two equality rows at `1.4e-8` and `1.6e-8`; each
candidate satisfies both rows within `1e-8`, yet their 8-decimal roundings
(`1e-8` and `2e-8`) differ. -/
def cfgC8 : SimplexProblemConfig :=
  (mkSimplexProblemConfig "simplex" "max" [1] [[1], [1]] [7 / 500000000, 2 / 125000000]
    ["=", "="] (some [none]) "general" true false false false false false "coordinates").1

/-- Constraint rows for C9: the 27 supporting lines of the convex polygon with
vertices `(j, j^2)` for `j = 0..26` — below-edges `y >= (2i+1)x - i(i+1)` for
`i = 1..25`, then `y >= x` (the edge through the origin), then the closing
top edge `y <= 26x` (also through the origin). -/
def rowsC9 : List (List ℚ) :=
  (List.range 25).map (fun r => [-(2 * ((r : ℚ) + 1) + 1), 1]) ++ [[-1, 1], [-26, 1]]

/-- Right-hand sides for C9. -/
def bC9 : List ℚ :=
  (List.range 25).map (fun r => -(((r : ℚ) + 1) * ((r : ℚ) + 2))) ++ [0, 0]

/-- Concrete problem for C9: 27 feasible vertices; the two rows meeting at the
origin are ordered last, so the all-zero vertex is discovered at index 26. -/
def cfgC9 : SimplexProblemConfig :=
  (mkSimplexProblemConfig "simplex" "max" [1, 1] rowsC9 bC9
    (List.replicate 26 ">=" ++ ["<="]) (some [none, none]) "general"
    true false false false false false "coordinates").1

/-- The 27 vertices of `cfgC9` in discovery order: the origin last. -/
def valsC9 : List (List ℚ) :=
  [[2, 4], [1, 1]] ++
    (List.range 23).map (fun k => [(k : ℚ) + 3, ((k : ℚ) + 3) * ((k : ℚ) + 3)]) ++
    [[26, 676], [0, 0]]

/-- The names `_calculate_intersection` produces for `cfgC9`: the 26 letters
for the non-zero vertices, then `O` for the origin at index 26. -/
def namesC9 : List String := (List.range 26).map (fun i => asciiUpper.getD i "") ++ ["O"]

/-- Witness problem for C4/C10: one variable, `x <= 3`, no bounds given. -/
def cfgW : SimplexProblemConfig :=
  (mkSimplexProblemConfig "simplex" "max" [2] [[1]] [3] ["<="] none "general"
    true false false false false false "objective").1

/-- Witness representation for C7: two vertices, linear objective `3x_1 + 5x_2`. -/
def repW7 : SimplexProblemRepresentation :=
  mkSimplexProblemRepresentation "coordinates" ["O", "A", "B"] [[0, 0], [2, 6], [4, 3]]
    (ObjectiveFunction.coeffs [3, 5]) "max"

/-- Witness representation for C10, matching the sweep scenario of the spec
(`best_z = 36`, `step = 2`); the fields are exactly what
`SimplexProblemRepresentation("objective", ..., "max")` stores
(`"max".lower()` is `"max"`). -/
def repW10 : SimplexProblemRepresentation :=
  { option := "objective", coordinates_names := ["O", "A"]
    coordinates_values := [[0, 0], [12, 0]]
    objective_function := ObjectiveFunction.coeffs [3, 0]
    objective_type := "max" }

/-- Modelled from the spec: the term stream the claim describes — the
nonzero coefficients paired with their original variable indices, the first
written term flagged, every later term unflagged. -/
def specTermsPairs : List (Nat × ℚ) → Bool → List String
  | [], _ => []
  | (j, q) :: rest, first =>
    format_term_for_expression q ("x_\x7b" ++ toString (j + 1) ++ "\x7d") first ::
      specTermsPairs rest false

lemma argmaxIdx_lt (l : List ℚ) (h : l ≠ []) : argmaxIdx l < l.length := by
  induction l with
  | nil => exact absurd rfl h
  | cons x xs ih =>
    cases xs with
    | nil => simp [argmaxIdx]
    | cons y ys =>
      by_cases hc : maxQ (y :: ys) ≤ x
      · simp [argmaxIdx, hc]
      · have := ih (by simp)
        simp only [argmaxIdx, if_neg hc, List.length_cons]
        simp only [List.length_cons] at this
        omega

lemma getD_argmaxIdx (l : List ℚ) (h : l ≠ []) : l.getD (argmaxIdx l) 0 = maxQ l := by
  induction l with
  | nil => exact absurd rfl h
  | cons x xs ih =>
    cases xs with
    | nil => simp [argmaxIdx, maxQ]
    | cons y ys =>
      by_cases hc : maxQ (y :: ys) ≤ x
      · simp [argmaxIdx, hc, maxQ, max_eq_left hc]
      · have hlt : x < maxQ (y :: ys) := lt_of_not_le hc
        simp only [argmaxIdx, if_neg hc, maxQ, List.getD_cons_succ]
        rw [ih (by simp), max_eq_right (le_of_lt hlt)]

lemma getD_le_maxQ (l : List ℚ) (j : Nat) (h : j < l.length) : l.getD j 0 ≤ maxQ l := by
  induction l generalizing j with
  | nil => simp at h
  | cons x xs ih =>
    cases xs with
    | nil =>
      cases j with
      | zero => simp [maxQ]
      | succ i =>
        simp only [List.length_cons, List.length_nil] at h
        omega
    | cons y ys =>
      cases j with
      | zero => simp [maxQ]
      | succ i =>
        have := ih i (by simpa using h)
        simp only [maxQ, List.getD_cons_succ]
        exact le_trans this (le_max_right _ _)

lemma getD_lt_of_lt_argmaxIdx (l : List ℚ) (j : Nat) (h : j < argmaxIdx l) :
    l.getD j 0 < maxQ l := by
  induction l generalizing j with
  | nil => simp [argmaxIdx] at h
  | cons x xs ih =>
    cases xs with
    | nil => simp [argmaxIdx] at h
    | cons y ys =>
      by_cases hc : maxQ (y :: ys) ≤ x
      · simp [argmaxIdx, hc] at h
      · have hlt : x < maxQ (y :: ys) := lt_of_not_le hc
        simp only [argmaxIdx, if_neg hc] at h
        have hmax : maxQ (x :: y :: ys) = maxQ (y :: ys) := by
          simp [maxQ, max_eq_right (le_of_lt hlt)]
        cases j with
        | zero => simpa [hmax] using hlt
        | succ i =>
          have := ih i (by omega)
          simpa [hmax] using this

lemma argminIdx_lt (l : List ℚ) (h : l ≠ []) : argminIdx l < l.length := by
  induction l with
  | nil => exact absurd rfl h
  | cons x xs ih =>
    cases xs with
    | nil => simp [argminIdx]
    | cons y ys =>
      by_cases hc : x ≤ minQ (y :: ys)
      · simp [argminIdx, hc]
      · have := ih (by simp)
        simp only [argminIdx, if_neg hc, List.length_cons]
        simp only [List.length_cons] at this
        omega

lemma getD_argminIdx (l : List ℚ) (h : l ≠ []) : l.getD (argminIdx l) 0 = minQ l := by
  induction l with
  | nil => exact absurd rfl h
  | cons x xs ih =>
    cases xs with
    | nil => simp [argminIdx, minQ]
    | cons y ys =>
      by_cases hc : x ≤ minQ (y :: ys)
      · simp [argminIdx, hc, minQ, min_eq_left hc]
      · have hlt : minQ (y :: ys) < x := lt_of_not_le hc
        simp only [argminIdx, if_neg hc, minQ, List.getD_cons_succ]
        rw [ih (by simp), min_eq_right (le_of_lt hlt)]

lemma minQ_le_getD (l : List ℚ) (j : Nat) (h : j < l.length) : minQ l ≤ l.getD j 0 := by
  induction l generalizing j with
  | nil => simp at h
  | cons x xs ih =>
    cases xs with
    | nil =>
      cases j with
      | zero => simp [minQ]
      | succ i =>
        simp only [List.length_cons, List.length_nil] at h
        omega
    | cons y ys =>
      cases j with
      | zero => simp [minQ]
      | succ i =>
        have := ih i (by simpa using h)
        simp only [minQ, List.getD_cons_succ]
        exact le_trans (min_le_right _ _) this

lemma minQ_lt_getD_of_lt_argminIdx (l : List ℚ) (j : Nat) (h : j < argminIdx l) :
    minQ l < l.getD j 0 := by
  induction l generalizing j with
  | nil => simp [argminIdx] at h
  | cons x xs ih =>
    cases xs with
    | nil => simp [argminIdx] at h
    | cons y ys =>
      by_cases hc : x ≤ minQ (y :: ys)
      · simp [argminIdx, hc] at h
      · have hlt : minQ (y :: ys) < x := lt_of_not_le hc
        simp only [argminIdx, if_neg hc] at h
        have hmin : minQ (x :: y :: ys) = minQ (y :: ys) := by
          simp [minQ, min_eq_right (le_of_lt hlt)]
        cases j with
        | zero => simpa [hmin] using hlt
        | succ i =>
          have := ih i (by omega)
          simpa [hmin] using this

lemma nameOf_ok_nonzero (idx : Nat) (pt : List ℚ) (s : String)
    (hnz : pt.any (fun x => decide (x ≠ 0)) = true)
    (h : nameOf idx pt = Except.ok s) : idx < 26 ∧ s = asciiUpper.getD idx "" := by
  unfold nameOf at h
  rw [if_pos hnz] at h
  cases hg : asciiUpper.get? idx with
  | none => rw [hg] at h; exact absurd h (by simp)
  | some t =>
    rw [hg] at h
    have hlt : idx < asciiUpper.length := by
      by_contra hge
      rw [List.get?_eq_none.mpr (by omega)] at hg
      exact absurd hg (by simp)
    refine ⟨by simpa [asciiUpper] using hlt, ?_⟩
    have : t = s := by cases h; rfl
    rw [← this, List.getD_eq_get?, hg]
    rfl

lemma nameVerticesAux_ok_spec :
    ∀ (ps : List (List ℚ)) (idx : Nat) (ns : List String),
      nameVerticesAux idx ps = Except.ok ns →
      ns.length = ps.length ∧
      ∀ i, i < ps.length →
        (ns.getD i "" =
          if (ps.getD i []).any (fun x => decide (x ≠ 0)) = true then asciiUpper.getD (idx + i) ""
          else "O") ∧
        ((ps.getD i []).any (fun x => decide (x ≠ 0)) = true → idx + i < 26) := by
  intro ps
  induction ps with
  | nil =>
    intro idx ns h
    cases h
    exact ⟨rfl, by intro i hi; simp at hi⟩
  | cons p rest ih =>
    intro idx ns h
    unfold nameVerticesAux at h
    cases hn : nameOf idx p with
    | error e => rw [hn] at h; exact absurd h (by simp)
    | ok s =>
      rw [hn] at h
      cases hr : nameVerticesAux (idx + 1) rest with
      | error e => rw [hr] at h; exact absurd h (by simp)
      | ok r =>
        rw [hr] at h
        have hns : ns = s :: r := by cases h; rfl
        subst hns
        obtain ⟨hlen, hspec⟩ := ih (idx + 1) r hr
        refine ⟨by simp [hlen], ?_⟩
        intro i hi
        cases i with
        | zero =>
          simp only [List.getD_cons_zero, Nat.add_zero]
          by_cases hnz : p.any (fun x => decide (x ≠ 0)) = true
          · obtain ⟨h26, hs⟩ := nameOf_ok_nonzero idx p s hnz hn
            exact ⟨by rw [if_pos hnz, hs], fun _ => h26⟩
          · have hb : p.any (fun x => decide (x ≠ 0)) = false := by
              simpa using hnz
            have hsO : s = "O" := by
              unfold nameOf at hn
              rw [if_neg hnz] at hn
              cases hn; rfl
            exact ⟨by rw [if_neg hnz, hsO], fun hcon => absurd hcon hnz⟩
        | succ k =>
          have hk := hspec k (by simpa using hi)
          constructor
          · have := hk.1
            simpa [Nat.add_comm, Nat.add_assoc, Nat.add_left_comm] using this
          · intro hnz
            have := hk.2 (by simpa using hnz)
            omega

lemma nameVerticesAux_error_iff :
    ∀ (ps : List (List ℚ)) (idx : Nat),
      nameVerticesAux idx ps = Except.error "IndexError" ↔
      ∃ i pt, ps.get? i = some pt ∧ 26 ≤ idx + i ∧
        pt.any (fun x => decide (x ≠ 0)) = true := by
  intro ps
  induction ps with
  | nil =>
    intro idx
    constructor
    · intro h; exact absurd h (by simp [nameVerticesAux])
    · rintro ⟨i, pt, hget, -, -⟩; simp at hget
  | cons p rest ih =>
    intro idx
    constructor
    · intro h
      unfold nameVerticesAux at h
      cases hn : nameOf idx p with
      | error e =>
        rw [hn] at h
        have he : e = "IndexError" := by cases h; rfl
        subst he
        unfold nameOf at hn
        by_cases hnz : p.any (fun x => decide (x ≠ 0)) = true
        · rw [if_pos hnz] at hn
          cases hg : asciiUpper.get? idx with
          | none =>
            have h26 : 26 ≤ idx := by
              have := List.get?_eq_none.mp hg
              simpa [asciiUpper] using this
            exact ⟨0, p, rfl, by omega, hnz⟩
          | some t => rw [hg] at hn; exact absurd hn (by simp)
        · rw [if_neg hnz] at hn; exact absurd hn (by simp)
      | ok s =>
        rw [hn] at h
        cases hr : nameVerticesAux (idx + 1) rest with
        | error e =>
          rw [hr] at h
          have he : e = "IndexError" := by cases h; rfl
          subst he
          obtain ⟨i, pt, hget, hge, hnz⟩ := (ih (idx + 1)).mp hr
          exact ⟨i + 1, pt, by simpa using hget, by omega, hnz⟩
        | ok r => rw [hr] at h; exact absurd h (by simp)
    · rintro ⟨i, pt, hget, hge, hnz⟩
      cases i with
      | zero =>
        have hp : pt = p := by cases hget; rfl
        subst hp
        have hg : asciiUpper.get? idx = none :=
          List.get?_eq_none.mpr (by simp [asciiUpper]; omega)
        unfold nameVerticesAux nameOf
        rw [if_pos hnz, hg]
      | succ k =>
        have hget' : rest.get? k = some pt := by simpa using hget
        have herr : nameVerticesAux (idx + 1) rest = Except.error "IndexError" :=
          (ih (idx + 1)).mpr ⟨k, pt, hget', by omega, hnz⟩
        unfold nameVerticesAux
        cases hn : nameOf idx p with
        | error e =>
          have he : e = "IndexError" := by
            unfold nameOf at hn
            by_cases hpz : p.any (fun x => decide (x ≠ 0)) = true
            · rw [if_pos hpz] at hn
              cases hg : asciiUpper.get? idx with
              | none => rw [hg] at hn; cases hn; rfl
              | some t => rw [hg] at hn; exact absurd hn (by simp)
            · rw [if_neg hpz] at hn; exact absurd hn (by simp)
          rw [he]
        | ok s => rw [herr]

lemma augmentFold_spec (numVars : Nat) :
    ∀ (vb : List (Option String)) (n : Nat) (A : List (List ℚ)) (b : List ℚ),
      (List.enumFrom n vb).foldl
        (fun acc p =>
          if p.2 = some ">=" then (acc.1 ++ [eRow numVars p.1], acc.2 ++ [0]) else acc)
        (A, b) =
      (A ++ ((List.enumFrom n vb).filter (fun p => decide (p.2 = some ">="))).map
          (fun p => eRow numVars p.1),
       b ++ List.replicate (vb.count (some ">=")) 0) := by
  intro vb
  induction vb with
  | nil => intro n A b; simp [List.count]
  | cons v t ih =>
    intro n A b
    by_cases hv : v = some ">="
    · subst hv
      simp only [List.enumFrom, List.foldl_cons]
      rw [if_pos (by trivial)]
      rw [ih]
      simp [List.filter_cons, List.count_cons, List.replicate_succ, List.append_assoc]
    · simp only [List.enumFrom, List.foldl_cons]
      rw [show (if (((n, v) : Nat × Option String).2 = some ">=") then
            (A ++ [eRow numVars n], b ++ [0]) else (A, b)) = (A, b) from if_neg hv]
      rw [ih]
      simp [List.filter_cons, List.count_cons, hv, Ne.symm hv]

lemma augmentLoop_spec (A : List (List ℚ)) (b : List ℚ) (numVars : Nat)
    (vb : List (Option String)) :
    augmentLoop A b numVars vb =
      (A ++ (vb.enum.filter (fun p => decide (p.2 = some ">="))).map
          (fun p => eRow numVars p.1),
       b ++ List.replicate (vb.count (some ">=")) 0) := by
  unfold augmentLoop
  exact augmentFold_spec numVars vb 0 A b

lemma augmentLoop_id (A : List (List ℚ)) (b : List ℚ) (numVars : Nat)
    (vb : List (Option String)) (h : ∀ x ∈ vb, x ≠ some ">=") :
    augmentLoop A b numVars vb = (A, b) := by
  rw [augmentLoop_spec]
  have hf : vb.enum.filter (fun p => decide (p.2 = some ">=")) = [] := by
    rw [List.filter_eq_nil]
    intro p hp
    have := List.snd_mem_of_mem_enum (l := vb) hp
    simp [h p.2 this]
  have hc : vb.count (some ">=") = 0 :=
    List.count_eq_zero.mpr (fun hmem => h _ hmem rfl)
  simp [hf, hc]

lemma foldl_insertNew_firstDedup {α : Type} [DecidableEq α] :
    ∀ (l : List α) (acc : List α),
      l.foldl insertNew acc = acc ++ firstDedup (l.filter (fun x => decide (x ∉ acc))) := by
  intro l
  induction l with
  | nil => intro acc; simp [firstDedup]
  | cons a t ih =>
    intro acc
    by_cases ha : a ∈ acc
    · have h1 : insertNew acc a = acc := by simp [insertNew, ha]
      simp only [List.foldl_cons, h1, List.filter_cons, decide_eq_true_eq]
      rw [if_neg (by simp [ha])]
      exact ih acc
    · have h1 : insertNew acc a = acc ++ [a] := by simp [insertNew, ha]
      simp only [List.foldl_cons, h1, List.filter_cons, decide_eq_true_eq]
      rw [if_pos (by simp [ha])]
      rw [ih (acc ++ [a])]
      have hfilter :
          t.filter (fun x => decide (x ∉ acc ++ [a])) =
            (t.filter (fun x => decide (x ∉ acc))).filter (fun x => decide (x ≠ a)) := by
        rw [List.filter_filter]
        apply List.filter_congr
        intro x _
        by_cases hxa : x = a
        · subst hxa; simp
        · by_cases hxacc : x ∈ acc <;> simp [hxa, hxacc]
      rw [hfilter]
      have hfd : firstDedup (a :: t.filter (fun x => decide (x ∉ acc))) =
          a :: firstDedup ((t.filter (fun x => decide (x ∉ acc))).filter
            (fun x => decide (x ≠ a))) := by
        simp [firstDedup]
      rw [hfd]
      simp

lemma mem_of_mem_firstDedup {α : Type} [DecidableEq α] :
    ∀ (n : Nat) (l : List α), l.length ≤ n → ∀ x ∈ firstDedup l, x ∈ l := by
  intro n
  induction n with
  | zero =>
    intro l hl x hx
    have : l = [] := List.eq_nil_of_length_eq_zero (Nat.le_zero.mp hl)
    subst this
    simpa [firstDedup] using hx
  | succ m ih =>
    intro l hl x hx
    cases l with
    | nil => simpa [firstDedup] using hx
    | cons a t =>
      rw [show firstDedup (a :: t) =
        a :: firstDedup (t.filter (fun y => decide (y ≠ a))) from by simp [firstDedup]] at hx
      rcases List.mem_cons.mp hx with h | h
      · simp [h]
      · have hlen : (t.filter (fun y => decide (y ≠ a))).length ≤ m := by
          have h1 := List.length_filter_le (fun y => decide (y ≠ a)) t
          have h2 : t.length ≤ m := by simpa using Nat.le_of_succ_le_succ hl
          omega
        have := ih _ hlen x h
        have := List.mem_of_mem_filter this
        simp [this]

lemma firstDedup_nodup {α : Type} [DecidableEq α] :
    ∀ (n : Nat) (l : List α), l.length ≤ n → (firstDedup l).Nodup := by
  intro n
  induction n with
  | zero =>
    intro l hl
    have : l = [] := List.eq_nil_of_length_eq_zero (Nat.le_zero.mp hl)
    subst this
    simp [firstDedup]
  | succ m ih =>
    intro l hl
    cases l with
    | nil => simp [firstDedup]
    | cons a t =>
      rw [show firstDedup (a :: t) =
        a :: firstDedup (t.filter (fun y => decide (y ≠ a))) from by simp [firstDedup]]
      have hlen : (t.filter (fun y => decide (y ≠ a))).length ≤ m := by
        have h1 := List.length_filter_le (fun y => decide (y ≠ a)) t
        have h2 : t.length ≤ m := by simpa using Nat.le_of_succ_le_succ hl
        omega
      refine List.nodup_cons.mpr ⟨?_, ih _ hlen⟩
      intro hmem
      have := mem_of_mem_firstDedup _ _ hlen a hmem
      have := List.of_mem_filter this
      simp at this

lemma collect_foldl_eq (Aaug : List (List ℚ)) (Baug : List ℚ) (signs : List String)
    (numVars : Nat) :
    ∀ (combs : List (List Nat)) (acc : List (List ℚ)),
      combs.foldl
        (fun acc combo =>
          match linSolve (combo.map (fun i => Aaug.getD i []))
              (combo.map (fun i => Baug.getD i 0)) with
          | none => acc
          | some pt =>
            if feasibleAll Aaug Baug signs numVars pt then insertNew acc (roundPt pt) else acc)
        acc =
      (((combs.filterMap (fun combo =>
            linSolve (combo.map (fun i => Aaug.getD i []))
              (combo.map (fun i => Baug.getD i 0)))).filter
          (fun pt => feasibleAll Aaug Baug signs numVars pt)).map roundPt).foldl
        insertNew acc := by
  intro combs
  induction combs with
  | nil => intro acc; simp
  | cons combo rest ih =>
    intro acc
    rw [List.foldl_cons, List.filterMap_cons]
    cases hs : linSolve (combo.map (fun i => Aaug.getD i []))
        (combo.map (fun i => Baug.getD i 0)) with
    | none => exact ih acc
    | some pt =>
      dsimp only
      by_cases hf : feasibleAll Aaug Baug signs numVars pt = true
      · rw [if_pos hf]
        rw [List.filter_cons, if_pos (by simpa using hf), List.map_cons, List.foldl_cons]
        exact ih (insertNew acc (roundPt pt))
      · rw [if_neg hf]
        rw [List.filter_cons, if_neg (by simpa using hf)]
        exact ih acc

lemma collectVertices_eq_firstDedup (Aaug : List (List ℚ)) (Baug : List ℚ)
    (signs : List String) (numVars : Nat) :
    collectVertices Aaug Baug signs numVars =
      firstDedup (candidatePoints Aaug Baug signs numVars) := by
  unfold collectVertices candidatePoints solvedPoints
  rw [collect_foldl_eq, foldl_insertNew_firstDedup]
  have hfilter :
      ∀ l : List (List ℚ), l.filter (fun x => decide (x ∉ ([] : List (List ℚ)))) = l := by
    intro l
    apply List.filter_eq_self.mpr
    intro x _
    simp
  rw [hfilter]
  simp

lemma vertexKeys_mem_candidate (cfg : SimplexProblemConfig) (pt : List ℚ)
    (h : pt ∈ vertexKeys cfg) :
    ∃ q ∈ solvedPoints (augSystem cfg).1 (augSystem cfg).2 (numVarsOf cfg),
      feasibleAll (augSystem cfg).1 (augSystem cfg).2 cfg.constraint_signs
        (numVarsOf cfg) q = true ∧ pt = roundPt q := by
  unfold vertexKeys at h
  rw [collectVertices_eq_firstDedup] at h
  have hmem := mem_of_mem_firstDedup (candidatePoints (augSystem cfg).1 (augSystem cfg).2
    cfg.constraint_signs (numVarsOf cfg)).length _ le_rfl pt h
  unfold candidatePoints at hmem
  obtain ⟨q, hq, hrq⟩ := List.mem_map.mp hmem
  exact ⟨q, List.mem_of_mem_filter hq, List.of_mem_filter hq, hrq.symm⟩

lemma get?_eq_some_getD {α : Type} (l : List α) (n : Nat) (d : α) (h : n < l.length) :
    l.get? n = some (l.getD n d) := by
  rw [List.get?_eq_get h, List.getD_eq_get l d h]

lemma zValues_length (rep : SimplexProblemRepresentation) :
    (zValues rep).length = rep.coordinates_values.length := by
  unfold zValues
  cases rep.objective_function <;> simp

lemma calculate_intersection_ok (cfg : SimplexProblemConfig) (ns : List String)
    (vs : List (List ℚ)) (h : calculate_intersection cfg = Except.ok (ns, vs)) :
    vs = vertexKeys cfg ∧ nameVerticesAux 0 (vertexKeys cfg) = Except.ok ns := by
  unfold calculate_intersection nameVertices at h
  cases hn : nameVerticesAux 0 (vertexKeys cfg) with
  | error e => rw [hn] at h; exact absurd h (by simp)
  | ok r =>
    rw [hn] at h
    cases h
    exact ⟨rfl, rfl⟩

lemma calculate_intersection_lengths (cfg : SimplexProblemConfig) (ns : List String)
    (vs : List (List ℚ)) (h : calculate_intersection cfg = Except.ok (ns, vs)) :
    ns.length = vs.length := by
  obtain ⟨hvs, hns⟩ := calculate_intersection_ok cfg ns vs h
  subst hvs
  exact (nameVerticesAux_ok_spec _ 0 ns hns).1

lemma exprTerms_eq_specTermsPairs :
    ∀ (c : List ℚ) (j : Nat) (first : Bool),
      exprTerms c j first =
        specTermsPairs ((List.enumFrom j c).filter (fun p => decide (p.2 ≠ 0))) first := by
  intro c
  induction c with
  | nil => intro j first; simp [exprTerms, specTermsPairs]
  | cons q rest ih =>
    intro j first
    by_cases hq : q = 0
    · subst hq
      rw [show exprTerms (0 :: rest) j first = exprTerms rest (j + 1) first from by
        simp [exprTerms]]
      rw [show List.enumFrom j ((0 : ℚ) :: rest) = (j, (0 : ℚ)) :: List.enumFrom (j + 1) rest
        from rfl]
      rw [List.filter_cons, if_neg (by simp)]
      exact ih (j + 1) first
    · rw [show exprTerms (q :: rest) j first =
        format_term_for_expression q ("x_\x7b" ++ toString (j + 1) ++ "\x7d") first ::
          exprTerms rest (j + 1) false from by simp [exprTerms, hq]]
      rw [show List.enumFrom j (q :: rest) = (j, q) :: List.enumFrom (j + 1) rest from rfl]
      rw [List.filter_cons, if_pos (by simp [hq])]
      rw [show specTermsPairs ((j, q) ::
          (List.enumFrom (j + 1) rest).filter (fun p => decide (p.2 ≠ 0))) first =
        format_term_for_expression q ("x_\x7b" ++ toString (j + 1) ++ "\x7d") first ::
          specTermsPairs ((List.enumFrom (j + 1) rest).filter (fun p => decide (p.2 ≠ 0))) false
        from rfl]
      rw [ih (j + 1) false]

lemma objective_method_run (rep : SimplexProblemRepresentation) (step : Option ℚ)
    (pr : Bool) (hopt : rep.option = "objective") (hne : rep.coordinates_values ≠ [])
    (hlen : rep.coordinates_names.length = rep.coordinates_values.length) :
    objective_method rep step pr =
      match step with
      | none => Except.error "TypeError"
      | some s =>
        if pr then Except.ok none
        else Except.ok (some (bestZ rep - s, bestZ rep, bestZ rep + s)) := by
  unfold objective_method
  rw [if_neg (by simp [hopt])]
  have hzlen := zValues_length rep
  have hz : ¬((zValues rep).isEmpty = true) := by
    rw [List.isEmpty_iff]
    intro hc
    rw [hc] at hzlen
    exact hne (List.eq_nil_of_length_eq_zero hzlen.symm)
  rw [if_neg hz]
  have hzne : zValues rep ≠ [] := fun hc => hz (by simp [hc])
  have hbi : (if rep.objective_type = "max" then argmaxIdx (zValues rep)
      else argminIdx (zValues rep)) < (zValues rep).length := by
    by_cases ht : rep.objective_type = "max"
    · rw [if_pos ht]; exact argmaxIdx_lt _ hzne
    · rw [if_neg ht]; exact argminIdx_lt _ hzne
  dsimp only
  rw [get?_eq_some_getD rep.coordinates_names _ "" (by rw [hlen, ← hzlen]; exact hbi)]
  rw [get?_eq_some_getD rep.coordinates_values _ [] (by rw [← hzlen]; exact hbi)]

lemma objective_method_none_step (rep : SimplexProblemRepresentation)
    (hopt : rep.option = "objective") (hne : rep.coordinates_values ≠ [])
    (hlen : rep.coordinates_names.length = rep.coordinates_values.length) (pr : Bool) :
    objective_method rep none pr = Except.error "TypeError" :=
  objective_method_run rep none pr hopt hne hlen

lemma objective_method_some_step (rep : SimplexProblemRepresentation) (s : ℚ)
    (hopt : rep.option = "objective") (hne : rep.coordinates_values ≠ [])
    (hlen : rep.coordinates_names.length = rep.coordinates_values.length) :
    objective_method rep (some s) false =
      Except.ok (some (bestZ rep - s, bestZ rep, bestZ rep + s)) ∧
    objective_method rep (some s) true = Except.ok none := by
  constructor
  · rw [objective_method_run rep (some s) false hopt hne hlen]
    rfl
  · rw [objective_method_run rep (some s) true hopt hne hlen]
    rfl

lemma coordinate_method_run (rep : SimplexProblemRepresentation)
    (h1 : rep.option = "coordinates") (h2 : rep.coordinates_values ≠ [])
    (h3 : rep.coordinates_names.length = rep.coordinates_values.length) :
    coordinate_method rep =
      Except.ok
        (rep.coordinates_names.getD
          (if rep.objective_type = "max" then argmaxIdx (zValues rep)
            else argminIdx (zValues rep)) "",
         rep.coordinates_values.getD
          (if rep.objective_type = "max" then argmaxIdx (zValues rep)
            else argminIdx (zValues rep)) [],
         (zValues rep).getD
          (if rep.objective_type = "max" then argmaxIdx (zValues rep)
            else argminIdx (zValues rep)) 0) := by
  unfold coordinate_method
  rw [if_neg (by simp [h1])]
  rw [if_neg (show ¬(rep.coordinates_values.isEmpty = true) by
    simp [List.isEmpty_iff, h2])]
  have hzlen := zValues_length rep
  have hzne : zValues rep ≠ [] := by
    intro hc
    rw [hc] at hzlen
    exact h2 (List.eq_nil_of_length_eq_zero hzlen.symm)
  have hbi : (if rep.objective_type = "max" then argmaxIdx (zValues rep)
      else argminIdx (zValues rep)) < (zValues rep).length := by
    by_cases ht : rep.objective_type = "max"
    · rw [if_pos ht]; exact argmaxIdx_lt _ hzne
    · rw [if_neg ht]; exact argminIdx_lt _ hzne
  dsimp only
  rw [get?_eq_some_getD rep.coordinates_names _ "" (by rw [h3, ← hzlen]; exact hbi)]
  rw [get?_eq_some_getD rep.coordinates_values _ [] (by rw [← hzlen]; exact hbi)]
  rw [get?_eq_some_getD (zValues rep) _ 0 hbi]

lemma mkSimplexSolver_config (cfg : SimplexProblemConfig) (st : Option ℚ) :
    (mkSimplexSolver cfg st).config = cfg := rfl

lemma mkSimplexSolver_none_step (cfg : SimplexProblemConfig) :
    (mkSimplexSolver cfg none).step = none := by
  unfold mkSimplexSolver
  by_cases h : cfg.option ∉ ["objective"] ∧ (none : Option ℚ) ≠ none
  · rw [if_pos h]
  · rw [if_neg h]

lemma solve_objective_none_step (cfg : SimplexProblemConfig) (ns : List String)
    (vs : List (List ℚ)) (hopt : cfg.option = "objective")
    (hok : calculate_intersection cfg = Except.ok (ns, vs)) (hne : vs ≠ []) :
    solve (mkSimplexSolver cfg none) = Except.error "TypeError" := by
  have hlen : ns.length = vs.length := calculate_intersection_lengths cfg ns vs hok
  set rep := mkSimplexProblemRepresentation cfg.option ns vs
    (ObjectiveFunction.coeffs cfg.c) cfg.objective_type with hrep
  have hropt : rep.option = "objective" := hopt
  have hrvals : rep.coordinates_values ≠ [] := hne
  have hrlen : rep.coordinates_names.length = rep.coordinates_values.length := hlen
  have hstep := mkSimplexSolver_none_step cfg
  unfold solve
  rw [mkSimplexSolver_config, hok]
  dsimp only
  have hplot : plot_domain (mkSimplexSolver cfg none) rep = Except.ok () ∨
      plot_domain (mkSimplexSolver cfg none) rep = Except.error "TypeError" := by
    unfold plot_domain
    by_cases hpp : (mkSimplexSolver cfg none).config.print_plot = false
    · rw [if_pos hpp]; exact Or.inl rfl
    · rw [if_neg hpp]
      by_cases h2 : (mkSimplexSolver cfg none).config.c.length = 2 ∧
          (mkSimplexSolver cfg none).config.option = "objective"
      · rw [if_pos h2, hstep, objective_method_none_step rep hropt hrvals hrlen false]
        exact Or.inr rfl
      · rw [if_neg h2]; exact Or.inl rfl
  rcases hplot with hp | hp
  · rw [hp]
    dsimp only
    rw [← hrep, if_pos hopt, hstep, objective_method_none_step rep hropt hrvals hrlen true]
  · rw [hp]

/-- C1: the claim that every vertex *returned* by
`SimplexSolver._calculate_intersection` satisfies every row of the full
augmented constraint set within `1e-8` is false: for `cfgC1` the returned
vertex is the rounded point `[1e-8]`, the row `1e10 * x <= 75` belongs to the
augmented check list, and the feasibility clause of that row rejects `[1e-8]`
(the unrounded candidate `7.5e-9` was feasible; rounding moved it by `25`
units of the left-hand side). -/
theorem C1_counterexample :
    calculate_intersection cfgC1 = Except.ok (["A"], [[1 / 100000000]]) ∧
    ([(10000000000 : ℚ)], (75 : ℚ), "<=") ∈ augmentedChecks cfgC1 ∧
    rowInfeasible [(10000000000 : ℚ)] 75 "<=" [1 / 100000000] = true :=
  ⟨by rfl, by decide, by rfl⟩

/-- C1 (amended): every vertex returned by
`SimplexSolver._calculate_intersection` is the coordinatewise 8-decimal
rounding of a solved candidate point that satisfies every constraint of the
full augmented set within `1e-8`; the feasibility check runs before rounding,
so the returned (rounded) vertex itself may violate the tolerance. -/
theorem C1_amended (cfg : SimplexProblemConfig) (ns : List String) (vs : List (List ℚ))
    (hok : calculate_intersection cfg = Except.ok (ns, vs)) (pt : List ℚ)
    (hpt : pt ∈ vs) :
    ∃ q ∈ solvedPoints (augSystem cfg).1 (augSystem cfg).2 (numVarsOf cfg),
      feasibleAll (augSystem cfg).1 (augSystem cfg).2 cfg.constraint_signs
        (numVarsOf cfg) q = true ∧ pt = roundPt q := by
  obtain ⟨hvs, -⟩ := calculate_intersection_ok cfg ns vs hok
  exact vertexKeys_mem_candidate cfg pt (hvs ▸ hpt)

/-- Witness for the amended C1 at `cfgC1`. -/
theorem C1_amended_witness :
    ∃ q ∈ solvedPoints (augSystem cfgC1).1 (augSystem cfgC1).2 (numVarsOf cfgC1),
      feasibleAll (augSystem cfgC1).1 (augSystem cfgC1).2 cfgC1.constraint_signs
        (numVarsOf cfgC1) q = true ∧ [(1 : ℚ) / 100000000] = roundPt q :=
  C1_amended cfgC1 ["A"] [[1 / 100000000]] (by rfl)
    [1 / 100000000] (by decide)

/-- C2: on the infeasible system of the spec (`x_1 >= 5`, `x_1 <= 2`, `x_2 >= 0`)
the enumeration correctly yields the empty vertex set, but `solve` then
raises `IndexError` (from `self.coordinates_values[0]` in
`coordinate_method`) instead of reporting a distinct no-feasible-solution
outcome: the `NoFeasibleSolution` signal the spec requires does not exist in
the code. -/
theorem C2_infeasible_crash :
    vertexKeys cfgC2 = [] ∧
    solve (mkSimplexSolver cfgC2 none) = Except.error "IndexError" :=
  ⟨by rfl, by rfl⟩

/-- C3: the claim that the k-th *non-zero* vertex discovered is named with
the k-th letter is false: in `cfgC3` the origin is discovered first, and the
first non-zero vertex `(1,1)` (discovery index 1) is named `"B"`
(`ascii_uppercase[1]`), not `"A"` as the rule of the claim (`specNaming`) would
name it. -/
theorem C3_counterexample :
    calculate_intersection cfgC3 = Except.ok (["O", "B"], [[0, 0], [1, 1]]) ∧
    specNaming [[0, 0], [1, 1]] 0 = ["O", "A"] ∧
    (["O", "B"] : List String) ≠ ["O", "A"] :=
  ⟨by rfl, by rfl, by decide⟩

/-- C3 (amended): the all-zero point is named `"O"` wherever it occurs, and
every other vertex is named with the letter at its *overall* discovery index
(`ascii_uppercase[idx]`), so when the zero point precedes non-zero vertices
the letter at its position is skipped rather than reassigned. -/
theorem C3_amended (cfg : SimplexProblemConfig) (ns : List String) (vs : List (List ℚ))
    (hok : calculate_intersection cfg = Except.ok (ns, vs)) :
    ns.length = vs.length ∧
    ∀ i, i < vs.length →
      ns.getD i "" =
        if (vs.getD i []).any (fun x => decide (x ≠ 0)) = true then asciiUpper.getD i ""
        else "O" := by
  obtain ⟨hvs, hns⟩ := calculate_intersection_ok cfg ns vs hok
  subst hvs
  obtain ⟨hlen, hspec⟩ := nameVerticesAux_ok_spec _ 0 ns hns
  refine ⟨hlen, fun i hi => ?_⟩
  have := (hspec i hi).1
  simpa using this

/-- Witness for the amended C3 at `cfgC3`. -/
theorem C3_amended_witness :
    (["O", "B"] : List String).length = ([[0, 0], [1, 1]] : List (List ℚ)).length ∧
    ∀ i, i < ([[0, 0], [1, 1]] : List (List ℚ)).length →
      (["O", "B"] : List String).getD i "" =
        if (([[0, 0], [1, 1]] : List (List ℚ)).getD i []).any (fun x => decide (x ≠ 0)) = true
        then asciiUpper.getD i "" else "O" :=
  C3_amended cfgC3 ["O", "B"] [[0, 0], [1, 1]] (by rfl)

/-- C8: the claim that two combinations yielding the same feasible point "up
to 1e-8" produce one vertex is false: in `cfgC8` the two solved candidates
`1.4e-8` and `1.6e-8` differ by `2e-9 ≤ 1e-8`, yet they round to the distinct
keys `1e-8` and `2e-8` and the FeasibleSet keeps both. -/
theorem C8_counterexample :
    calculate_intersection cfgC8 =
      Except.ok (["A", "B"], [[1 / 100000000], [1 / 50000000]]) ∧
    linSolve [[1]] [7 / 500000000] = some [7 / 500000000] ∧
    linSolve [[1]] [2 / 125000000] = some [2 / 125000000] ∧
    |(7 / 500000000 : ℚ) - 2 / 125000000| ≤ tol ∧
    roundPt [7 / 500000000] ≠ roundPt [2 / 125000000] :=
  ⟨by rfl, by rfl, by rfl, by decide, by decide⟩

/-- C8 (amended): deduplication keys on the 8-decimal *rounded* tuple, not on
1e-8 closeness: the vertex list is exactly the first-occurrence
deduplication, in first-seen order, of the rounded feasible candidate stream,
and it contains no duplicates — two combinations collapse to one vertex
exactly when their candidates round to the same tuple. -/
theorem C8_amended (cfg : SimplexProblemConfig) :
    vertexKeys cfg =
      firstDedup (candidatePoints (augSystem cfg).1 (augSystem cfg).2
        cfg.constraint_signs (numVarsOf cfg)) ∧
    (vertexKeys cfg).Nodup := by
  have h := collectVertices_eq_firstDedup (augSystem cfg).1 (augSystem cfg).2
    cfg.constraint_signs (numVarsOf cfg)
  refine ⟨h, ?_⟩
  unfold vertexKeys
  rw [h]
  exact firstDedup_nodup _ _ le_rfl

/-- C9: the claim that any problem discovering a vertex at index 26 or
beyond raises `IndexError` is false: `cfgC9` discovers 27 distinct vertices,
the 27th (index 26) being the all-zero point, which the conditional names
`"O"` without ever indexing `ascii_uppercase`, so the call returns normally. -/
theorem C9_counterexample :
    calculate_intersection cfgC9 = Except.ok (namesC9, valsC9) ∧
    valsC9.length = 27 ∧
    valsC9.get? 26 = some [0, 0] ∧
    namesC9.get? 26 = some "O" :=
  ⟨by rfl, by rfl, by rfl, by rfl⟩

/-- C9 (amended): `_calculate_intersection` raises `IndexError` exactly when
some vertex at discovery index 26 or beyond has a nonzero coordinate; an
all-zero vertex at such an index is still named `"O"` without error. -/
theorem C9_amended (cfg : SimplexProblemConfig) :
    calculate_intersection cfg = Except.error "IndexError" ↔
      ∃ i pt, (vertexKeys cfg).get? i = some pt ∧ 26 ≤ i ∧
        pt.any (fun x => decide (x ≠ 0)) = true := by
  unfold calculate_intersection nameVertices
  constructor
  · intro h
    cases hn : nameVerticesAux 0 (vertexKeys cfg) with
    | error e =>
      rw [hn] at h
      have he : e = "IndexError" := by cases h; rfl
      subst he
      obtain ⟨i, pt, hget, hge, hnz⟩ := (nameVerticesAux_error_iff _ 0).mp hn
      exact ⟨i, pt, hget, by omega, hnz⟩
    | ok r => rw [hn] at h; exact absurd h (by simp)
  · rintro ⟨i, pt, hget, hge, hnz⟩
    rw [(nameVerticesAux_error_iff _ 0).mpr ⟨i, pt, hget, by omega, hnz⟩]

/-- C4: a missing `var_bounds` defaults every variable to unbounded
(`[None] * len(c)`), variable bounds with no `">="` tag leave the working
system untouched, and in general the augmentation appends exactly one
synthetic row `e_i` (with right-hand side `0`) per index `i` whose bound tag
is `">="` — `"<="`, `"="` and unbounded tags contribute nothing. -/
theorem C4_bound_defaults :
    (∀ (m ot : String) (c : List ℚ) (A : List (List ℚ)) (b : List ℚ)
        (signs : List String) (pf : String) (p1 p2 p3 p4 p5 p6 : Bool) (opt : String),
      ((mkSimplexProblemConfig m ot c A b signs none pf p1 p2 p3 p4 p5 p6 opt).1).var_bounds =
        List.replicate c.length none) ∧
    (∀ cfg : SimplexProblemConfig, cfg.c ≠ [] →
      cfg.var_bounds = List.replicate cfg.c.length none →
      augSystem cfg = (cfg.A, cfg.b)) ∧
    (∀ (A : List (List ℚ)) (b : List ℚ) (n : Nat) (vb : List (Option String)),
      augmentLoop A b n vb =
        (A ++ (vb.enum.filter (fun p => decide (p.2 = some ">="))).map
            (fun p => eRow n p.1),
         b ++ List.replicate (vb.count (some ">=")) 0)) := by
  refine ⟨?_, ?_, augmentLoop_spec⟩
  · intro m ot c A b signs pf p1 p2 p3 p4 p5 p6 opt
    rfl
  · intro cfg hc hvb
    unfold augSystem effBounds
    have hne : ¬(cfg.var_bounds.isEmpty = true) := by
      rw [hvb, List.isEmpty_iff, List.replicate_eq_nil]
      exact fun h => hc (List.length_eq_zero.mp h)
    rw [if_neg hne, hvb]
    apply augmentLoop_id
    intro x hx
    rw [List.eq_of_mem_replicate hx]
    simp

/-- Witness for C4: default bounds on a one-variable problem, the identity
augmentation on `cfgW`, and a mixed bounds list appending exactly the one
`">="` row. -/
theorem C4_bound_defaults_witness :
    ((mkSimplexProblemConfig "simplex" "max" [2] [[1]] [3] ["<="] none "general"
        true false false false false false "objective").1).var_bounds =
      List.replicate 1 none ∧
    augSystem cfgW = (cfgW.A, cfgW.b) ∧
    augmentLoop [[1, 0], [0, 1]] [4, 5] 2 [some ">=", none] =
      ([[1, 0], [0, 1], [1, 0]], [4, 5, 0]) := by
  obtain ⟨h1, h2, h3⟩ := C4_bound_defaults
  refine ⟨h1 "simplex" "max" [2] [[1]] [3] ["<="] "general" true false false false false
    false "objective", h2 cfgW (by decide) (by rfl), ?_⟩
  rw [h3 [[1, 0], [0, 1]] [4, 5] 2 [some ">=", none]]
  rfl

/-- C5: the constructor performs no dimensional validation: with
`len(c) = 2`, an `A` row of length 3, `len(b) = 2 ≠ len(A) = 1`, the config is
built and stored verbatim with an empty warning list (no rejection path
exists), and the `summary` constraint renderer later silently truncates to
the single `zip`-aligned row — the fatal contract-violation rejection the
spec prescribes is absent from the code. -/
theorem C5_mismatch_accepted :
    ((mkSimplexProblemConfig "simplex" "max" [1, 2] [[1, 3, 4]] [5, 7] ["<="] none "general"
        true false false false false false "coordinates").1).c = [1, 2] ∧
    ((mkSimplexProblemConfig "simplex" "max" [1, 2] [[1, 3, 4]] [5, 7] ["<="] none "general"
        true false false false false false "coordinates").1).A = [[1, 3, 4]] ∧
    ((mkSimplexProblemConfig "simplex" "max" [1, 2] [[1, 3, 4]] [5, 7] ["<="] none "general"
        true false false false false false "coordinates").1).b = [5, 7] ∧
    (mkSimplexProblemConfig "simplex" "max" [1, 2] [[1, 3, 4]] [5, 7] ["<="] none "general"
        true false false false false false "coordinates").2 = [] ∧
    (constraintLines [[1, 3, 4]] [5, 7] ["<="]).length = 1 ∧
    ([5, 7] : List ℚ).length = 2 :=
  ⟨by rfl, by rfl, by rfl, by rfl, by rfl, by rfl⟩

/-- C6: expression assembly — `c = [0,0,0]` renders as the literal `"0"`,
`c = [1,0,-1]` renders as `x_{1} - x_{3}`, every all-zero (or empty)
coefficient list renders as `"0"`, the term loop emits exactly the nonzero
coefficients at their original indices with only the first written term
flagged, and a magnitude-1 coefficient omits the numeral with the sign
prepended bare for a first term and padded for later terms. -/
theorem C6_expression_assembly :
    objectiveString [0, 0, 0] = "0" ∧
    objectiveString [1, 0, -1] = "x_\x7b1\x7d - x_\x7b3\x7d" ∧
    (∀ c : List ℚ, (∀ x ∈ c, x = 0) → objectiveString c = "0") ∧
    (∀ c : List ℚ, exprTerms c 0 true =
      specTermsPairs (c.enum.filter (fun p => decide (p.2 ≠ 0))) true) ∧
    (∀ (q : ℚ) (v : String), |q| = 1 →
      format_term_for_expression q v true = (if q < 0 then "-" else "") ++ v ∧
      format_term_for_expression q v false = (if q < 0 then " - " else " + ") ++ v) := by
  refine ⟨by rfl, by rfl, ?_, ?_, ?_⟩
  · intro c h
    unfold objectiveString
    rw [if_pos (Or.inr (List.all_eq_true.mpr fun x hx => decide_eq_true (h x hx)))]
  · intro c
    exact exprTerms_eq_specTermsPairs c 0 true
  · intro q v habs
    constructor <;> simp [format_term_for_expression, habs]

/-- Witness for C6 at concrete inputs. -/
theorem C6_expression_assembly_witness :
    objectiveString [0, 0] = "0" ∧
    format_term_for_expression (-1) "y" true = "-y" ∧
    format_term_for_expression 1 "y" false = " + y" := by
  obtain ⟨-, -, h3, -, h5⟩ := C6_expression_assembly
  refine ⟨h3 [0, 0] (by decide), ?_, ?_⟩
  · rw [(h5 (-1) "y" (by decide)).1]
    rfl
  · rw [(h5 1 "y" (by decide)).2]
    rfl

/-- C7: for a nonempty vertex set (with names and values aligned) the
selector returns the vertex at the `np.argmax`/`np.argmin` index of the `z`
values: its objective value is ≥ every other value for `"max"` and ≤ every
other value for `"min"`, and every strictly earlier vertex has a strictly
worse value — ties are broken by first occurrence in enumeration order. -/
theorem C7_selector_optimal (rep : SimplexProblemRepresentation)
    (h1 : rep.option = "coordinates") (h2 : rep.coordinates_values ≠ [])
    (h3 : rep.coordinates_names.length = rep.coordinates_values.length) :
    ∃ i, i < (zValues rep).length ∧
      coordinate_method rep =
        Except.ok (rep.coordinates_names.getD i "", rep.coordinates_values.getD i [],
          (zValues rep).getD i 0) ∧
      (rep.objective_type = "max" →
        (∀ j, j < (zValues rep).length → (zValues rep).getD j 0 ≤ (zValues rep).getD i 0) ∧
        (∀ j, j < i → (zValues rep).getD j 0 < (zValues rep).getD i 0)) ∧
      (rep.objective_type = "min" →
        (∀ j, j < (zValues rep).length → (zValues rep).getD i 0 ≤ (zValues rep).getD j 0) ∧
        (∀ j, j < i → (zValues rep).getD i 0 < (zValues rep).getD j 0)) := by
  have hzlen := zValues_length rep
  have hzne : zValues rep ≠ [] := by
    intro hc
    rw [hc] at hzlen
    exact h2 (List.eq_nil_of_length_eq_zero hzlen.symm)
  refine ⟨if rep.objective_type = "max" then argmaxIdx (zValues rep)
    else argminIdx (zValues rep), ?_, coordinate_method_run rep h1 h2 h3, ?_, ?_⟩
  · by_cases ht : rep.objective_type = "max"
    · rw [if_pos ht]; exact argmaxIdx_lt _ hzne
    · rw [if_neg ht]; exact argminIdx_lt _ hzne
  · intro ht
    rw [if_pos ht]
    constructor
    · intro j hj
      rw [getD_argmaxIdx _ hzne]
      exact getD_le_maxQ _ j hj
    · intro j hj
      rw [getD_argmaxIdx _ hzne]
      exact getD_lt_of_lt_argmaxIdx _ j hj
  · intro ht
    have hmax : ¬(rep.objective_type = "max") := by rw [ht]; decide
    rw [if_neg hmax]
    constructor
    · intro j hj
      rw [getD_argminIdx _ hzne]
      exact minQ_le_getD _ j hj
    · intro j hj
      rw [getD_argminIdx _ hzne]
      exact minQ_lt_getD_of_lt_argminIdx _ j hj

/-- Witness for C7 at `repW7` (objective `3x_1 + 5x_2`, vertices
`O(0,0), A(2,6), B(4,3)`): the selected vertex is `A` with `z = 36`. -/
theorem C7_selector_optimal_witness :
    ∃ i, i < (zValues repW7).length ∧
      coordinate_method repW7 =
        Except.ok (repW7.coordinates_names.getD i "", repW7.coordinates_values.getD i [],
          (zValues repW7).getD i 0) ∧
      (repW7.objective_type = "max" →
        (∀ j, j < (zValues repW7).length →
          (zValues repW7).getD j 0 ≤ (zValues repW7).getD i 0) ∧
        (∀ j, j < i → (zValues repW7).getD j 0 < (zValues repW7).getD i 0)) ∧
      (repW7.objective_type = "min" →
        (∀ j, j < (zValues repW7).length →
          (zValues repW7).getD i 0 ≤ (zValues repW7).getD j 0) ∧
        (∀ j, j < i → (zValues repW7).getD i 0 < (zValues repW7).getD j 0)) :=
  C7_selector_optimal repW7 (by rfl) (by decide) (by rfl)

/-- C10: the solver step is `None` unless explicitly supplied in
`"objective"` mode (and is nulled for other options); with option
`"objective"`, no step and a nonempty vertex set, `solve()` raises
`TypeError` at `best_z - step`; and with a step supplied, `objective_method`
returns the sweep triple `(best_z - step, best_z, best_z + step)` exactly
when `print_result` is false, returning `None` when it is true. -/
theorem C10_step_objective :
    (∀ (cfg : SimplexProblemConfig) (st : Option ℚ), cfg.option ≠ "objective" →
      (mkSimplexSolver cfg st).step = none) ∧
    (∀ cfg : SimplexProblemConfig, (mkSimplexSolver cfg none).step = none) ∧
    (∀ (cfg : SimplexProblemConfig) (ns : List String) (vs : List (List ℚ)),
      cfg.option = "objective" → calculate_intersection cfg = Except.ok (ns, vs) →
      vs ≠ [] → solve (mkSimplexSolver cfg none) = Except.error "TypeError") ∧
    (∀ (rep : SimplexProblemRepresentation) (s : ℚ), rep.option = "objective" →
      rep.coordinates_values ≠ [] →
      rep.coordinates_names.length = rep.coordinates_values.length →
      objective_method rep (some s) false =
        Except.ok (some (bestZ rep - s, bestZ rep, bestZ rep + s)) ∧
      objective_method rep (some s) true = Except.ok none) := by
  refine ⟨?_, mkSimplexSolver_none_step, solve_objective_none_step,
    objective_method_some_step⟩
  intro cfg st h
  unfold mkSimplexSolver
  by_cases hs : st = none
  · subst hs
    simp
  · rw [if_pos ⟨by simpa using h, hs⟩]

/-- Witness for C10: a non-objective config nulls an explicit step, `cfgW`
(option `"objective"`, one vertex, no step) makes `solve` raise `TypeError`,
and the sweep scenario of the spec (`best_z = 36`, `step = 2`) yields
`(34, 36, 38)` with `print_result=False` and `None` with
`print_result=True`. -/
theorem C10_step_objective_witness :
    (mkSimplexSolver cfgC3 (some 5)).step = none ∧
    (mkSimplexSolver cfgW none).step = none ∧
    solve (mkSimplexSolver cfgW none) = Except.error "TypeError" ∧
    objective_method repW10 (some 2) false = Except.ok (some (34, 36, 38)) ∧
    objective_method repW10 (some 2) true = Except.ok none := by
  obtain ⟨h1, h2, h3, h4⟩ := C10_step_objective
  refine ⟨h1 cfgC3 (some 5) (by decide), h2 cfgW, ?_, ?_,
    (h4 repW10 2 rfl (by decide) rfl).2⟩
  · exact h3 cfgW ["A"] [[3]] rfl (by rfl) (by decide)
  · have hot : repW10.objective_type = "max" := rfl
    have hbz : bestZ repW10 = 36 := by
      unfold bestZ
      rw [if_pos hot]
      rfl
    rw [(h4 repW10 2 rfl (by decide) rfl).1, hbz]
    rfl

end LinProg
